import Mathlib

/-!
Verification development for the ESP32-Remote-Drive radio transport and
pairing subsystem.

The embedding covers:
* the TLV packet codec (`ESPNowPacket`): builder, serializer, parser and
  typed accessors;
* the peer table (`ManagerState`, `PeerRecord`) and its primitive
  operations;
* the pairing and command dispatcher
  (`handlePairRequest`, `processRxQueue` in its two source revisions);
* the heartbeat-timeout scan (`checkTimeouts`);
* the application-side receive callback (`onESPNowDataReceived`) and the
  main-loop connection check from `ESP32-Remote-Drive.ino`.

Bytes are modelled as `Nat` with explicit `% 256` at every point where the
C++ code stores into a `uint8_t` buffer.  Hardware addresses are lists of
bytes.  Radio transmissions, event callbacks, command callbacks and motor
commands are recorded as explicit outputs of the state-transition
functions, so that "the code sends / raises / invokes X" becomes "X is in
the output list".
-/

namespace RemoteDrive

/-- A hardware (MAC) address: six bytes in the firmware; modelled as a byte
list keyed by decidable equality. -/
abbrev Mac := List Nat

/-- One TLV entry of a frame: a sub-command identifier and its value bytes
(wire form `[SubCmd:1][Len:1][Value:Len]`). -/
structure Entry where
  subCmd : Nat
  value : List Nat
deriving DecidableEq, Repr

/-- A decoded frame: one-byte main command plus the entry sequence, in
insertion order. -/
structure ESPNowPacket where
  mainCmd : Nat
  entries : List Entry
deriving DecidableEq, Repr

/-- Encoded size of one entry: 2 header bytes plus the value bytes. -/
def entrySize (e : Entry) : Nat := 2 + e.value.length

/-- Total payload length of a frame body (the wire `TotalLen` byte: total
frame length minus the 2-byte frame header). -/
def payloadLen (es : List Entry) : Nat := (es.map entrySize).sum

/-- Modelled from the spec: `ESPNowPacket::begin(mainCommand)`
(ESPNowPacket.cpp is not under src/; contract from spec section 4.1).
Starts a new frame with the given main command byte. -/
def beginPacket (cmd : Nat) : ESPNowPacket := ⟨cmd % 256, []⟩

/-- Modelled from the spec: `ESPNowPacket::addEntry(subCommand, bytes)`
(ESPNowPacket.cpp is not under src/; contract from spec section 4.1).
Appends one entry; fails when the value exceeds 246 bytes or the frame
would exceed the 250-byte MTU. -/
def addEntry (p : ESPNowPacket) (sub : Nat) (val : List Nat) :
    Option ESPNowPacket :=
  if val.length ≤ 246 ∧ 2 + payloadLen p.entries + (2 + val.length) ≤ 250 then
    some ⟨p.mainCmd, p.entries ++ [⟨sub % 256, val⟩]⟩
  else
    none

/-- Modelled from the spec: the typed builder `addByte` (`addUInt8`) is a
thin wrapper storing one byte. -/
def addByte (p : ESPNowPacket) (sub : Nat) (b : Nat) : Option ESPNowPacket :=
  addEntry p sub [b % 256]

/-- Two's-complement encoding of an `Int` into an unsigned 16-bit value. -/
def toUInt16Wire (v : Int) : Nat := (v % 65536).toNat

/-- Modelled from the spec: the typed builder `addInt16` fixes byte order
to little-endian. -/
def addInt16 (p : ESPNowPacket) (sub : Nat) (v : Int) : Option ESPNowPacket :=
  addEntry p sub [toUInt16Wire v % 256, toUInt16Wire v / 256]

/-- Wire bytes of one entry: `[SubCmd:1][Len:1][Value:Len]`; stores through
a `uint8_t` buffer, hence the `% 256`. -/
def serializeEntry (e : Entry) : List Nat :=
  e.subCmd % 256 :: e.value.length % 256 :: e.value.map (· % 256)

/-- Modelled from the spec: the frame encoder
(`[MainCmd:1][TotalLen:1][Entry]*`, `TotalLen` = frame length − 2). -/
def serialize (p : ESPNowPacket) : List Nat :=
  p.mainCmd % 256 :: payloadLen p.entries % 256 ::
    (p.entries.map serializeEntry).flatten

/-- Fuel-indexed worker for the entry-list parser.  The fuel only bounds
the recursion depth (each entry consumes at least two bytes, so the
buffer length is always enough fuel); `parseEntries_cons` below recovers
the natural recursion. -/
def parseEntriesF : Nat → List Nat → Option (List Entry)
  | _, [] => some []
  | 0, _ :: _ => none
  | _ + 1, [_] => none
  | fuel + 1, sub :: len :: rest =>
    if len ≤ rest.length then
      match parseEntriesF fuel (rest.drop len) with
      | some es => some (⟨sub, rest.take len⟩ :: es)
      | none => none
    else
      none

/-- Modelled from the spec: the entry-list parser behind
`ESPNowPacket::parse`; each entry's declared length must not run past the
buffer end. -/
def parseEntries (l : List Nat) : Option (List Entry) :=
  parseEntriesF l.length l

/-- Modelled from the spec: `ESPNowPacket::parse(rawBytes, length)`
(ESPNowPacket.cpp is not under src/; contract from spec section 4.1).
Validates length ≥ 2 and that the second header byte equals length − 2,
then parses the entries; any violation yields `none` (the functional
return models failure without partial mutation of caller state). -/
def parse (bytes : List Nat) : Option ESPNowPacket :=
  match bytes with
  | cmd :: totalLen :: rest =>
    if totalLen = rest.length then
      match parseEntries rest with
      | some es => some ⟨cmd, es⟩
      | none => none
    else
      none
  | _ => none

/-- Modelled from the spec: entry lookup returns the first entry matching
the sub-command (first-match policy, spec section 9). -/
def findEntry (p : ESPNowPacket) (sub : Nat) : Option Entry :=
  p.entries.find? (fun e => e.subCmd = sub)

/-- Modelled from the spec: `ESPNowPacket::has(subCommand)`. -/
def hasEntry (p : ESPNowPacket) (sub : Nat) : Bool :=
  (findEntry p sub).isSome

/-- Modelled from the spec: `getData(subCommand)`: the stored value bytes
of the first matching entry. -/
def getData (p : ESPNowPacket) (sub : Nat) : Option (List Nat) :=
  (findEntry p sub).map Entry.value

/-- Little-endian signed 16-bit decode of two bytes. -/
def decodeInt16 (lo hi : Nat) : Int :=
  let u := lo % 256 + 256 * (hi % 256)
  if u < 32768 then (u : Int) else (u : Int) - 65536

/-- Modelled from the spec: `ESPNowPacket::getInt16`: typed getter that
verifies the stored entry length matches the type size (2 bytes) before
reinterpreting, little-endian. -/
def getInt16 (p : ESPNowPacket) (sub : Nat) : Option Int :=
  match findEntry p sub with
  | some e =>
    match e.value with
    | [lo, hi] => some (decodeInt16 lo hi)
    | _ => none
  | none => none

/-! ## Command identifiers

The enum definitions (`ESPNowManager.h` / `ESPNowPacket.h`) are not under
src/.  The identifiers referenced by the source and the spec are modelled
as distinct byte constants; `DataCmd.JOYSTICK_X`, `JOYSTICK_Y` and
`JOYSTICK_ALL` use the values named in the source comments (0x10, 0x11,
0x13), the others are representative distinct values. -/

namespace MainCmd

def HEARTBEAT : Nat := 1
def DATA_REQUEST : Nat := 2
def DATA_RESPONSE : Nat := 3
def USER_START : Nat := 4
def PAIR_REQUEST : Nat := 5
def PAIR_RESPONSE : Nat := 6
def ACK : Nat := 7
def ERROR : Nat := 8

end MainCmd

namespace DataCmd

def JOYSTICK_X : Nat := 0x10
def JOYSTICK_Y : Nat := 0x11
def JOYSTICK_ALL : Nat := 0x13
def ERROR_CODE : Nat := 0x30

end DataCmd

/-! ## Peer table and manager state -/

/-- One peer-table record (spec section 3, `PeerRecord`): hardware address,
connection flag, last-seen timestamp and packet counters. -/
structure PeerRecord where
  mac : Mac
  connected : Bool
  lastSeen : Nat
  packetsReceived : Nat
  packetsSent : Nat
  packetsLost : Nat
deriving DecidableEq, Repr

/-- Observable state of the ESP-NOW manager: the peer table, its capacity,
the configured authorized controller address (`ESPNOW_PEER_MAC` parsed by
`stringToMac`; `none` when the configured string does not parse) and
whether a receive callback is registered. -/
structure ManagerState where
  peers : List PeerRecord
  maxPeers : Nat
  authorizedMac : Option Mac
  callbackRegistered : Bool
deriving DecidableEq, Repr

/-! Events raised through `triggerEvent` (`ESPNowEvent` in the source). -/

namespace ESPNowEvent

def PEER_CONNECTED : Nat := 0
def PEER_DISCONNECTED : Nat := 1
def HEARTBEAT_TIMEOUT : Nat := 2
def HEARTBEAT_RECEIVED : Nat := 3
def DATA_RECEIVED : Nat := 4

end ESPNowEvent

/-- Observable effects of the dispatcher: radio transmissions (`send`),
events (`triggerEvent`), the registered receive callback
(`receiveCallback(mac, packet)`), and joystick input forwarded to
`MotorController::processMovementInput`. -/
inductive RCOutput where
  | sentPacket (dest : Mac) (pkt : ESPNowPacket)
  | raisedEvent (ev : Nat) (mac : Mac)
  | commandCallback (mac : Mac) (pkt : ESPNowPacket)
  | motorInput (x y : Int)
deriving DecidableEq, Repr

/-- Modelled from the spec: `ESPNowManager::findPeerIndex` — index of the
first peer record with the given address (ESPNowManager.cpp is not under
src/; contract from spec section 4.2). -/
def findPeerIndex (peers : List PeerRecord) (mac : Mac) : Option Nat :=
  peers.findIdx? (fun p => p.mac = mac)

/-- Modelled from the spec: `ESPNowManager::hasPeer(address)`. -/
def hasPeer (st : ManagerState) (mac : Mac) : Bool :=
  st.peers.any (fun p => p.mac = mac)

/-- Modelled from the spec: `ESPNowManager::addPeer(address, isLocalMaster)`
— fails when the capacity is exhausted, otherwise appends a fresh,
not-yet-connected record (spec section 4.2).  Driver-level registration
failure is an environment effect outside the model. -/
def addPeer (st : ManagerState) (mac : Mac) : Option ManagerState :=
  if st.maxPeers ≤ st.peers.length then
    none
  else
    some { st with peers := st.peers ++ [⟨mac, false, 0, 0, 0, 0⟩] }

/-- The peer mutation done by the HEARTBEAT / data branches of
`processRxQueue` under `peersMutex`: on the first record matching the
address, set `connected := true`, `lastSeen := timestamp` and increment
`packetsReceived` (part_004 lines 280-288, part_005 lines 134-142). -/
def touchFirst : List PeerRecord → Mac → Nat → List PeerRecord
  | [], _, _ => []
  | p :: ps, mac, ts =>
    if p.mac = mac then
      { p with connected := true, lastSeen := ts,
               packetsReceived := p.packetsReceived + 1 } :: ps
    else
      p :: touchFirst ps mac ts

/-- The peer mutation done by `handlePairRequest` under `peersMutex`: on
the first record matching the address, set `connected := true` and
`lastSeen := timestamp` (part_004 lines 124-146, part_005 lines 78-85). -/
def setConnectedFirst : List PeerRecord → Mac → Nat → List PeerRecord
  | [], _, _ => []
  | p :: ps, mac, ts =>
    if p.mac = mac then
      { p with connected := true, lastSeen := ts } :: ps
    else
      p :: setConnectedFirst ps mac ts

/-- Embeds `ESPNowRemoteController::isValidMasterMac` (part_004 lines 28-50,
part_005 lines 38-49): parse the configured peer MAC and compare; a null
or unparseable configuration rejects every address.  The parsed
configuration is carried in `ManagerState.authorizedMac`. -/
def isValidMasterMac (st : ManagerState) (mac : Mac) : Bool :=
  match st.authorizedMac with
  | some a => mac = a
  | none => false

/-- The `ERROR(INVALID_MAC)` reply built by `handlePairRequest` on a MAC
mismatch: `begin(MainCmd::ERROR); addByte(DataCmd::ERROR_CODE, 0x01)`
(part_004 lines 70-76, part_005 lines 63-67). -/
def errorInvalidMacPacket : ESPNowPacket :=
  ⟨MainCmd.ERROR, [⟨DataCmd.ERROR_CODE, [0x01]⟩]⟩

/-- The `PAIR_RESPONSE` reply: `begin(MainCmd::PAIR_RESPONSE)` with no
entries (part_004 lines 157-158, part_005 lines 87-88). -/
def pairResponsePacket : ESPNowPacket :=
  ⟨MainCmd.PAIR_RESPONSE, []⟩

/-- The `ACK` reply sent on HEARTBEAT by the part_005 revision
(part_005 lines 144-146). -/
def ackPacket : ESPNowPacket :=
  ⟨MainCmd.ACK, []⟩

/-- Embeds `ESPNowRemoteController::handlePairRequest(mac, timestamp)`
(part_005 lines 55-97; part_004 lines 56-214 is the same logic with extra
logging and re-verification).  MAC mismatch: send `ERROR(0x01)` and
return.  Otherwise add the peer if unknown (aborting when `addPeer`
fails), mark it connected, send `PAIR_RESPONSE` and raise
`PEER_CONNECTED`. -/
def handlePairRequest (st : ManagerState) (mac : Mac) (ts : Nat) :
    ManagerState × List RCOutput :=
  if isValidMasterMac st mac then
    match (if hasPeer st mac then some st else addPeer st mac) with
    | none => (st, [])
    | some st1 =>
      let st2 := { st1 with peers := setConnectedFirst st1.peers mac ts }
      (st2,
       [.sentPacket mac pairResponsePacket,
        .raisedEvent ESPNowEvent.PEER_CONNECTED mac])
  else
    (st, [.sentPacket mac errorInvalidMacPacket])

/-! ## Receive queue processing (`ESPNowRemoteController::processRxQueue`)

The source keeps two historical revisions of `ESPNowRemoteController.cpp`:
part_004 ("vollständiges Pairing-Handling") and part_005 ("mit Debug").
Both are embedded; they share `handlePairRequest` and the peer update, and
differ in the HEARTBEAT reply (event vs. `ACK`) and the joystick
decoding. -/

/-- One item of the inbound queue (`RxQueueItem`): source address, raw
frame bytes and the arrival timestamp. -/
structure RxQueueItem where
  mac : Mac
  data : List Nat
  timestamp : Nat
deriving DecidableEq, Repr

/-- Two's-complement truncation of an `Int` to a signed 8-bit value — the
`(int8_t)` casts applied before `processMovementInput`. -/
def toInt8 (v : Int) : Int :=
  let u := (v % 256).toNat
  if u < 128 then (u : Int) else (u : Int) - 256

/-- Modelled from the spec: the typed accessor behind
`packet.get<JoystickData>(JOYSTICK_ALL)` — per spec section 4.1 typed
getters verify that the stored entry length matches the requested type's
size (packed `JoystickData` = int16 x, int16 y, uint8 btn = 5 bytes)
before reinterpreting, little-endian. -/
def getJoystickAll (p : ESPNowPacket) : Option (Int × Int × Nat) :=
  match findEntry p DataCmd.JOYSTICK_ALL with
  | some e =>
    match e.value with
    | [x0, x1, y0, y1, btn] =>
      some (decodeInt16 x0 x1, decodeInt16 y0 y1, btn % 256)
    | _ => none
  | none => none

/-- Joystick decoding of the part_005 revision's data branch
(part_005 lines 161-224): prefer `JOYSTICK_ALL`, falling back to separate
`JOYSTICK_X` / `JOYSTICK_Y` int16 entries; decoded values are truncated
to `int8_t` and forwarded to `MotorController::processMovementInput`.
The "manual extraction" branch (lines 194-202) requires `dataLen >= 5`
inside the `dataLen < sizeof(JoystickData) = 5` case and is therefore
unreachable. -/
def joystickOutsV5 (pkt : ESPNowPacket) : List RCOutput :=
  match getData pkt DataCmd.JOYSTICK_ALL with
  | some val =>
    if val.length = 0 then []
    else if 5 ≤ val.length then
      match getJoystickAll pkt with
      | some (x, y, _) => [.motorInput (toInt8 x) (toInt8 y)]
      | none => []
    else []
  | none =>
    if hasEntry pkt DataCmd.JOYSTICK_X ∧ hasEntry pkt DataCmd.JOYSTICK_Y then
      match getInt16 pkt DataCmd.JOYSTICK_X, getInt16 pkt DataCmd.JOYSTICK_Y with
      | some jx, some jy => [.motorInput (toInt8 jx) (toInt8 jy)]
      | _, _ => []
    else []

/-- Processing of a single dequeued item by the part_005 revision
(part_005 lines 111-241): parse failure discards the item; `PAIR_REQUEST`
runs the pairing handler; `HEARTBEAT` touches the peer and replies `ACK`;
`USER_START` / `DATA_REQUEST` decode joystick data and touch the peer;
everything else is ignored. -/
def processItemV5 (st : ManagerState) (it : RxQueueItem) :
    ManagerState × List RCOutput :=
  match parse it.data with
  | none => (st, [])
  | some pkt =>
    if pkt.mainCmd = MainCmd.PAIR_REQUEST then
      handlePairRequest st it.mac it.timestamp
    else if pkt.mainCmd = MainCmd.HEARTBEAT then
      ({ st with peers := touchFirst st.peers it.mac it.timestamp },
       [.sentPacket it.mac ackPacket])
    else if pkt.mainCmd = MainCmd.USER_START ∨
            pkt.mainCmd = MainCmd.DATA_REQUEST then
      ({ st with peers := touchFirst st.peers it.mac it.timestamp },
       joystickOutsV5 pkt)
    else
      (st, [])

/-- Processing of a single dequeued item by the part_004 revision
(part_004 lines 236-344): parse failure discards the item; `PAIR_REQUEST`
runs the pairing handler; `HEARTBEAT` touches the peer and raises
`HEARTBEAT_RECEIVED`; `USER_START` / `DATA_REQUEST` with both
`JOYSTICK_X` and `JOYSTICK_Y` int16 entries invoke the registered receive
callback and raise `DATA_RECEIVED`, then touch the peer. -/
def processItemV4 (st : ManagerState) (it : RxQueueItem) :
    ManagerState × List RCOutput :=
  match parse it.data with
  | none => (st, [])
  | some pkt =>
    if pkt.mainCmd = MainCmd.PAIR_REQUEST then
      handlePairRequest st it.mac it.timestamp
    else if pkt.mainCmd = MainCmd.HEARTBEAT then
      ({ st with peers := touchFirst st.peers it.mac it.timestamp },
       [.raisedEvent ESPNowEvent.HEARTBEAT_RECEIVED it.mac])
    else if pkt.mainCmd = MainCmd.USER_START ∨
            pkt.mainCmd = MainCmd.DATA_REQUEST then
      let outs :=
        if hasEntry pkt DataCmd.JOYSTICK_X ∧ hasEntry pkt DataCmd.JOYSTICK_Y then
          match getInt16 pkt DataCmd.JOYSTICK_X,
                getInt16 pkt DataCmd.JOYSTICK_Y with
          | some _, some _ =>
            (if st.callbackRegistered then [RCOutput.commandCallback it.mac pkt]
             else []) ++ [.raisedEvent ESPNowEvent.DATA_RECEIVED it.mac]
          | _, _ => []
        else []
      ({ st with peers := touchFirst st.peers it.mac it.timestamp }, outs)
    else
      (st, [])

/-- Drains the inbound queue in FIFO order through the part_005
single-item step (the `while xQueueReceive` loop). -/
def processRxQueueV5 : ManagerState → List RxQueueItem →
    ManagerState × List RCOutput
  | st, [] => (st, [])
  | st, it :: rest =>
    let r1 := processItemV5 st it
    let r2 := processRxQueueV5 r1.1 rest
    (r2.1, r1.2 ++ r2.2)

/-- Drains the inbound queue in FIFO order through the part_004
single-item step. -/
def processRxQueueV4 : ManagerState → List RxQueueItem →
    ManagerState × List RCOutput
  | st, [] => (st, [])
  | st, it :: rest =>
    let r1 := processItemV4 st it
    let r2 := processRxQueueV4 r1.1 rest
    (r2.1, r1.2 ++ r2.2)

/-! ## Heartbeat-timeout scan -/

/-- Modelled from the spec: the per-peer step of the Transport Worker's
periodic timeout scan (`ESPNowManager::update`, not under src/; spec
sections 4.3 and 4.4 step 4): a connected peer whose `lastSeen` predates
`now` minus the configured timeout is marked disconnected and the
`HEARTBEAT_TIMEOUT` / `PEER_DISCONNECTED` events are raised. -/
def scanPeer (now timeout : Nat) (p : PeerRecord) :
    PeerRecord × List RCOutput :=
  if p.connected ∧ p.lastSeen + timeout < now then
    ({ p with connected := false },
     [.raisedEvent ESPNowEvent.HEARTBEAT_TIMEOUT p.mac,
      .raisedEvent ESPNowEvent.PEER_DISCONNECTED p.mac])
  else
    (p, [])

/-- Modelled from the spec: the full timeout scan over the peer table;
peers are never removed (spec section 3: records stay for the process
lifetime). -/
def checkTimeouts (st : ManagerState) (now timeout : Nat) :
    ManagerState × List RCOutput :=
  let scanned := st.peers.map (scanPeer now timeout)
  ({ st with peers := scanned.map Prod.fst },
   (scanned.map Prod.snd).flatten)

/-! ## Application layer (`ESP32-Remote-Drive.ino`) -/

/-- Pre-parsed payload of a result-queue item consumed by the main loop
(fields read by `onESPNowDataReceived`). -/
structure ResultData where
  hasMotor : Bool
  motorLeft : Int
  motorRight : Int
  hasJoystick : Bool
  joystickX : Int
  joystickY : Int
deriving DecidableEq, Repr

/-- One item of the result queue handed to `onESPNowDataReceived`. -/
structure ResultQueueItem where
  mac : Mac
  mainCmd : Nat
  data : ResultData
deriving DecidableEq, Repr

/-- Application-level globals touched by the `.ino` receive path
(Globals.cpp). -/
structure DriveAppState where
  remoteConnected : Bool
  lastRemoteActivity : Nat
  lastHeartbeat : Nat
  motorLeftSpeed : Int
  motorRightSpeed : Int
deriving DecidableEq, Repr

/-- Arduino `constrain`: clamp a value into `[lo, hi]`. -/
def constrain (v lo hi : Int) : Int := max lo (min v hi)

/-- Embeds `setMotorSpeed(left, right)` (ESP32-Remote-Drive.ino lines
296-331): clamps both values to [-100, 100] and stores them (the PWM pin
writes are hardware effects outside the model). -/
def setMotorSpeed (st : DriveAppState) (l r : Int) : DriveAppState :=
  { st with motorLeftSpeed := constrain l (-100) 100,
            motorRightSpeed := constrain r (-100) 100 }

/-- Embeds `onESPNowDataReceived(mac, cmd, result)` (ESP32-Remote-Drive.ino
lines 362-410): records activity time, latches `remoteConnected := true`,
then dispatches on the main command — `HEARTBEAT` stamps `lastHeartbeat`;
`DATA_REQUEST` / `USER_START` apply motor values and/or joystick mixing
(`left = y + x`, `right = y - x`, clamped). -/
def onESPNowDataReceived (now : Nat) (mac : Mac) (cmd : Nat)
    (result : ResultQueueItem) (st : DriveAppState) : DriveAppState :=
  let st1 := { st with lastRemoteActivity := now }
  let st2 :=
    if st1.remoteConnected then st1 else { st1 with remoteConnected := true }
  if cmd = MainCmd.HEARTBEAT then
    { st2 with lastHeartbeat := now }
  else if cmd = MainCmd.DATA_REQUEST ∨ cmd = MainCmd.USER_START then
    let st3 :=
      if result.data.hasMotor then
        setMotorSpeed st2 result.data.motorLeft result.data.motorRight
      else st2
    if result.data.hasJoystick then
      let l := result.data.joystickY + result.data.joystickX
      let r := result.data.joystickY - result.data.joystickX
      setMotorSpeed st3 (constrain l (-100) 100) (constrain r (-100) 100)
    else st3
  else
    st2

/-! ## Derived definitions used by the statements -/

/-- Frame builder from a whole entry sequence: `begin(mainCommand)`
followed by one `addEntry` per entry, failing as soon as one is
rejected. -/
def buildPacket (cmd : Nat) (es : List Entry) : Option ESPNowPacket :=
  es.foldlM (fun p e => addEntry p e.subCmd e.value) (beginPacket cmd)

/-- Fuel-indexed worker for `entriesOk` (same fuel discipline as
`parseEntriesF`). -/
def entriesOkF : Nat → List Nat → Bool
  | _, [] => true
  | 0, _ :: _ => false
  | _ + 1, [_] => false
  | fuel + 1, _ :: len :: rest =>
    if len ≤ rest.length then entriesOkF fuel (rest.drop len) else false

/-- Decidable well-formedness of a frame body: every entry's declared
length stays within the buffer end (the success condition of
`parseEntries`). -/
def entriesOk (l : List Nat) : Bool :=
  entriesOkF l.length l

/-- Number of peer-table records carrying a given address. -/
def countMac (ps : List PeerRecord) (a : Mac) : Nat :=
  ps.countP (fun p => p.mac = a)

/-! ## Helper lemmas -/

lemma parseEntriesF_congr :
    ∀ (f : Nat) (l : List Nat) (g : Nat), l.length ≤ f → l.length ≤ g →
      parseEntriesF f l = parseEntriesF g l := by
  intro f
  induction f with
  | zero =>
    intro l g h1 _
    have hl : l = [] := List.length_eq_zero.mp (Nat.le_zero.mp h1)
    subst hl
    cases g <;> rfl
  | succ k ih =>
    intro l g h1 h2
    cases l with
    | nil => cases g <;> rfl
    | cons sub l2 =>
      cases l2 with
      | nil =>
        cases g with
        | zero => simp at h2
        | succ m => rfl
      | cons len rest =>
        cases g with
        | zero => simp at h2
        | succ m =>
          simp only [List.length_cons] at h1 h2
          simp only [parseEntriesF]
          by_cases hle : len ≤ rest.length
          · rw [if_pos hle, if_pos hle,
              ih (rest.drop len) m (by simp; omega) (by simp; omega)]
          · rw [if_neg hle, if_neg hle]

lemma parseEntries_cons (sub len : Nat) (rest : List Nat) :
    parseEntries (sub :: len :: rest) =
      if len ≤ rest.length then
        match parseEntries (rest.drop len) with
        | some es => some (⟨sub, rest.take len⟩ :: es)
        | none => none
      else
        none := by
  unfold parseEntries
  simp only [List.length_cons, parseEntriesF]
  by_cases hle : len ≤ rest.length
  · rw [if_pos hle, if_pos hle,
      parseEntriesF_congr (rest.length + 1) (rest.drop len)
        (rest.drop len).length (by simp; omega) le_rfl]
  · rw [if_neg hle, if_neg hle]

lemma parseEntriesF_isSome :
    ∀ (f : Nat) (l : List Nat), (parseEntriesF f l).isSome = entriesOkF f l := by
  intro f
  induction f with
  | zero => intro l; cases l <;> rfl
  | succ k ih =>
    intro l
    match l with
    | [] => rfl
    | [x] => rfl
    | sub :: len :: rest =>
      simp only [parseEntriesF, entriesOkF]
      by_cases hle : len ≤ rest.length
      · rw [if_pos hle, if_pos hle, ← ih (rest.drop len)]
        cases parseEntriesF k (rest.drop len) <;> rfl
      · rw [if_neg hle, if_neg hle]; rfl

lemma parseEntries_isSome_eq (l : List Nat) :
    (parseEntries l).isSome = entriesOk l :=
  parseEntriesF_isSome l.length l

lemma payloadLen_append (a b : List Entry) :
    payloadLen (a ++ b) = payloadLen a + payloadLen b := by
  simp [payloadLen]

lemma touchFirst_of_absent (ps : List PeerRecord) (mac : Mac) (ts : Nat)
    (h : ps.any (fun p => p.mac = mac) = false) :
    touchFirst ps mac ts = ps := by
  induction ps with
  | nil => rfl
  | cons p ps ih =>
    simp only [List.any_cons, Bool.or_eq_false_iff, decide_eq_false_iff_not] at h
    simpa [touchFirst, h.1] using ih h.2

lemma touchFirst_map_mac (ps : List PeerRecord) (mac : Mac) (ts : Nat) :
    (touchFirst ps mac ts).map PeerRecord.mac = ps.map PeerRecord.mac := by
  induction ps with
  | nil => rfl
  | cons p ps ih =>
    by_cases h : p.mac = mac
    · simp [touchFirst, h]
    · simp [touchFirst, h, ih]

lemma touchFirst_any_connected (ps : List PeerRecord) (mac : Mac) (ts : Nat)
    (h : ps.any (fun p => p.mac = mac) = true) :
    (touchFirst ps mac ts).any
      (fun p => decide (p.mac = mac) && p.connected) = true := by
  induction ps with
  | nil => simp at h
  | cons p ps ih =>
    by_cases hm : p.mac = mac
    · simp [touchFirst, hm]
    · simp only [List.any_cons, decide_eq_true_eq, Bool.or_eq_true] at h
      have h2 : ps.any (fun p => p.mac = mac) = true := by
        rcases h with h | h
        · exact absurd h hm
        · simpa using h
      simp [touchFirst, hm, ih h2]

lemma setConnectedFirst_append_of_absent (ps : List PeerRecord)
    (r : PeerRecord) (mac : Mac) (ts : Nat)
    (h : ps.any (fun p => p.mac = mac) = false) (hr : r.mac = mac) :
    setConnectedFirst (ps ++ [r]) mac ts =
      ps ++ [{ r with connected := true, lastSeen := ts }] := by
  induction ps with
  | nil => simp [setConnectedFirst, hr]
  | cons p ps ih =>
    simp only [List.any_cons, Bool.or_eq_false_iff, decide_eq_false_iff_not] at h
    simpa [setConnectedFirst, h.1] using ih h.2

lemma serialize_flatten_length (es : List Entry) :
    ((es.map serializeEntry).flatten).length = payloadLen es := by
  induction es with
  | nil => rfl
  | cons e es ih =>
    simp only [List.map_cons, List.flatten_cons, List.length_append, ih,
      serializeEntry, List.length_cons, List.length_map, payloadLen,
      List.map_cons, List.sum_cons, entrySize]
    omega

lemma parseEntries_serialize (es : List Entry)
    (hsub : ∀ e ∈ es, e.subCmd < 256)
    (hval : ∀ e ∈ es, ∀ b ∈ e.value, b < 256)
    (hlen : ∀ e ∈ es, e.value.length ≤ 246) :
    parseEntries ((es.map serializeEntry).flatten) = some es := by
  induction es with
  | nil => rfl
  | cons e es ih =>
    have h1 : e.subCmd % 256 = e.subCmd :=
      Nat.mod_eq_of_lt (hsub e (by simp))
    have h2 : e.value.length % 256 = e.value.length :=
      Nat.mod_eq_of_lt (by have := hlen e (by simp); omega)
    have h3 : e.value.map (· % 256) = e.value := by
      have := List.map_congr_left
        (fun b hb => Nat.mod_eq_of_lt (hval e (by simp) b hb))
      simpa using this
    have hser : ((e :: es).map serializeEntry).flatten =
        e.subCmd :: e.value.length ::
          (e.value ++ (es.map serializeEntry).flatten) := by
      simp [serializeEntry, h1, h2, h3]
    rw [hser, parseEntries_cons,
      if_pos (by simp : e.value.length ≤
        (e.value ++ (es.map serializeEntry).flatten).length),
      List.take_left, List.drop_left,
      ih (fun x hx => hsub x (by simp [hx]))
        (fun x hx => hval x (by simp [hx]))
        (fun x hx => hlen x (by simp [hx]))]

lemma foldlM_addEntry (es : List Entry) :
    ∀ (p : ESPNowPacket),
      (∀ e ∈ es, e.subCmd < 256) →
      (∀ e ∈ es, e.value.length ≤ 246) →
      2 + payloadLen (p.entries ++ es) ≤ 250 →
      es.foldlM (fun q e => addEntry q e.subCmd e.value) p
        = some ⟨p.mainCmd, p.entries ++ es⟩ := by
  induction es with
  | nil =>
    intro p _ _ _
    simp
  | cons e es ih =>
    intro p hsub hlen htot
    have hbound : 2 + payloadLen p.entries + (2 + e.value.length) ≤ 250 := by
      rw [payloadLen_append] at htot
      simp only [payloadLen, List.map_cons, List.sum_cons, entrySize] at htot ⊢
      omega
    have hadd : addEntry p e.subCmd e.value
        = some ⟨p.mainCmd, p.entries ++ [⟨e.subCmd % 256, e.value⟩]⟩ := by
      unfold addEntry
      rw [if_pos ⟨hlen e (by simp), hbound⟩]
    have hsub1 : (⟨e.subCmd % 256, e.value⟩ : Entry) = e := by
      rw [Nat.mod_eq_of_lt (hsub e (by simp))]
    rw [List.foldlM_cons, hadd]
    show (es.foldlM (fun q x => addEntry q x.subCmd x.value)
        ⟨p.mainCmd, p.entries ++ [⟨e.subCmd % 256, e.value⟩]⟩) = _
    rw [hsub1,
      ih ⟨p.mainCmd, p.entries ++ [e]⟩
        (fun x hx => hsub x (by simp [hx]))
        (fun x hx => hlen x (by simp [hx]))
        (by simpa [List.append_assoc] using htot)]
    simp

lemma countMac_append_single (ps : List PeerRecord) (r : PeerRecord) (a : Mac)
    (h : ps.any (fun p => p.mac = a) = false) (hr : r.mac = a) :
    countMac (ps ++ [r]) a = 1 := by
  have h0 : countMac ps a = 0 := by
    simp only [List.any_eq_false, decide_eq_true_eq] at h
    simpa [countMac, List.countP_eq_zero] using h
  simp [countMac, List.countP_append, hr] at h0 ⊢
  simpa [countMac] using h0

/-! ## Claim theorems -/

/-- C8: the frame built by
`begin(DATA_REQUEST).addInt16(JOYSTICK_X, 42).addInt16(JOYSTICK_Y, -17)`
serializes to the exact wire bytes `[2, 8, 16, 2, 42, 0, 17, 2, 239, 255]`;
delivered through the part_004 receive path they decode back to
`mainCmd = DATA_REQUEST`, `JOYSTICK_X = 42`, `JOYSTICK_Y = -17`, and the
registered command callback is invoked exactly once with that decoded
packet (the full output list is the single callback invocation followed by
the `DATA_RECEIVED` event). -/
theorem joystick_scenario_end_to_end :
    ((addInt16 (beginPacket MainCmd.DATA_REQUEST) DataCmd.JOYSTICK_X 42).bind
        (fun p => addInt16 p DataCmd.JOYSTICK_Y (-17))).map serialize
      = some [2, 8, 16, 2, 42, 0, 17, 2, 239, 255] ∧
    (parse [2, 8, 16, 2, 42, 0, 17, 2, 239, 255]).map ESPNowPacket.mainCmd
      = some MainCmd.DATA_REQUEST ∧
    (parse [2, 8, 16, 2, 42, 0, 17, 2, 239, 255]).bind
        (fun p => getInt16 p DataCmd.JOYSTICK_X) = some 42 ∧
    (parse [2, 8, 16, 2, 42, 0, 17, 2, 239, 255]).bind
        (fun p => getInt16 p DataCmd.JOYSTICK_Y) = some (-17) ∧
    processRxQueueV4 ⟨[], 1, some [1, 2, 3, 4, 5, 6], true⟩
        [⟨[1, 2, 3, 4, 5, 6], [2, 8, 16, 2, 42, 0, 17, 2, 239, 255], 0⟩]
      = (⟨[], 1, some [1, 2, 3, 4, 5, 6], true⟩,
         [RCOutput.commandCallback [1, 2, 3, 4, 5, 6]
            ⟨MainCmd.DATA_REQUEST,
             [⟨DataCmd.JOYSTICK_X, [42, 0]⟩, ⟨DataCmd.JOYSTICK_Y, [239, 255]⟩]⟩,
          RCOutput.raisedEvent ESPNowEvent.DATA_RECEIVED [1, 2, 3, 4, 5, 6]]) := by
  decide

/-- C10: every invocation of `onESPNowDataReceived` — for any main
command, source address and result payload — leaves `remoteConnected`
true and sets `lastRemoteActivity` to the current time, independent of
any pairing state. -/
theorem onESPNowDataReceived_sets_connected (now : Nat) (mac : Mac)
    (cmd : Nat) (result : ResultQueueItem) (st : DriveAppState) :
    (onESPNowDataReceived now mac cmd result st).remoteConnected = true ∧
    (onESPNowDataReceived now mac cmd result st).lastRemoteActivity = now := by
  cases hrc : st.remoteConnected <;>
    by_cases h1 : cmd = MainCmd.HEARTBEAT <;>
    by_cases h2 : cmd = MainCmd.DATA_REQUEST ∨ cmd = MainCmd.USER_START <;>
    by_cases h3 : result.data.hasMotor <;>
    by_cases h4 : result.data.hasJoystick <;>
    simp [onESPNowDataReceived, setMotorSpeed, hrc, h1, h2, h3, h4]

/-- C7: an inbound item whose raw bytes fail to parse is discarded by both
revisions of the dispatcher with no peer-table update and no reply, and
the remaining queue items are processed exactly as if the malformed item
had not been there (FIFO order preserved; the dispatcher, a total
function, cannot crash). -/
theorem malformed_frame_discarded (st4 st5 : ManagerState) (it : RxQueueItem)
    (rest : List RxQueueItem) (h : parse it.data = none) :
    processRxQueueV5 st5 (it :: rest) = processRxQueueV5 st5 rest ∧
    processRxQueueV4 st4 (it :: rest) = processRxQueueV4 st4 rest := by
  constructor
  · simp [processRxQueueV5, processItemV5, h]
  · simp [processRxQueueV4, processItemV4, h]

/-- C7 witness: a one-byte buffer fails to parse and is dropped, the rest
of the queue being processed unchanged. -/
theorem malformed_frame_discarded_witness :
    parse ([9] : List Nat) = none ∧
    (processRxQueueV5 ⟨[], 1, none, false⟩ [⟨[1, 2, 3, 4, 5, 6], [9], 0⟩]
        = processRxQueueV5 ⟨[], 1, none, false⟩ [] ∧
      processRxQueueV4 ⟨[], 1, none, false⟩ [⟨[1, 2, 3, 4, 5, 6], [9], 0⟩]
        = processRxQueueV4 ⟨[], 1, none, false⟩ []) :=
  ⟨by decide,
   malformed_frame_discarded ⟨[], 1, none, false⟩ ⟨[], 1, none, false⟩
     ⟨[1, 2, 3, 4, 5, 6], [9], 0⟩ [] (by decide)⟩

/-- C9: a HEARTBEAT frame from an address absent from the peer table
leaves the manager state (in particular every peer record) unchanged, yet
the part_005 dispatcher still attempts an `ACK` reply transmission to
that source address. -/
theorem heartbeat_unknown_peer_ack (st : ManagerState) (it : RxQueueItem)
    (pkt : ESPNowPacket) (hp : parse it.data = some pkt)
    (hc : pkt.mainCmd = MainCmd.HEARTBEAT) (hu : hasPeer st it.mac = false) :
    processItemV5 st it = (st, [RCOutput.sentPacket it.mac ackPacket]) := by
  have ht : touchFirst st.peers it.mac it.timestamp = st.peers :=
    touchFirst_of_absent _ _ _ hu
  simp [processItemV5, hp, hc, MainCmd.HEARTBEAT, MainCmd.PAIR_REQUEST, ht]

/-- C9 witness: a heartbeat from a never-paired source with an empty peer
table is answered with `ACK` and changes nothing. -/
theorem heartbeat_unknown_peer_ack_witness :
    parse ([1, 0] : List Nat) = some ⟨MainCmd.HEARTBEAT, []⟩ ∧
    hasPeer ⟨[], 1, some [9, 9, 9, 9, 9, 9], false⟩ [1, 2, 3, 4, 5, 6] = false ∧
    processItemV5 ⟨[], 1, some [9, 9, 9, 9, 9, 9], false⟩
        ⟨[1, 2, 3, 4, 5, 6], [1, 0], 77⟩
      = (⟨[], 1, some [9, 9, 9, 9, 9, 9], false⟩,
         [RCOutput.sentPacket [1, 2, 3, 4, 5, 6] ackPacket]) :=
  ⟨by decide, by decide,
   heartbeat_unknown_peer_ack ⟨[], 1, some [9, 9, 9, 9, 9, 9], false⟩
     ⟨[1, 2, 3, 4, 5, 6], [1, 0], 77⟩ ⟨MainCmd.HEARTBEAT, []⟩
     (by decide) (by decide) (by decide)⟩

/-- C1: a `PAIR_REQUEST` from a source address different from the
configured authorized controller address changes no manager state (no
peer added, no connected flag set) and both dispatcher revisions reply
with exactly one `ERROR` frame carrying `ERROR_CODE = 0x01` to the
sender — the request is never silently ignored. -/
theorem pair_request_unauthorized_rejected (st : ManagerState)
    (it : RxQueueItem) (pkt : ESPNowPacket) (a : Mac)
    (hp : parse it.data = some pkt) (hc : pkt.mainCmd = MainCmd.PAIR_REQUEST)
    (ha : st.authorizedMac = some a) (hm : it.mac ≠ a) :
    processItemV5 st it = (st, [RCOutput.sentPacket it.mac errorInvalidMacPacket]) ∧
    processItemV4 st it = (st, [RCOutput.sentPacket it.mac errorInvalidMacPacket]) ∧
    errorInvalidMacPacket =
      ⟨MainCmd.ERROR, [⟨DataCmd.ERROR_CODE, [1]⟩]⟩ := by
  have hv : isValidMasterMac st it.mac = false := by
    simp [isValidMasterMac, ha, hm]
  have hh : handlePairRequest st it.mac it.timestamp =
      (st, [RCOutput.sentPacket it.mac errorInvalidMacPacket]) := by
    simp [handlePairRequest, hv]
  exact ⟨by simp [processItemV5, hp, hc, hh],
         by simp [processItemV4, hp, hc, hh], rfl⟩

/-- C1 witness: a pairing request from `[7,7,7,7,7,7]` while the
authorized address is `[1,2,3,4,5,6]` is rejected with `ERROR(0x01)`. -/
theorem pair_request_unauthorized_rejected_witness :
    parse ([5, 0] : List Nat) = some ⟨MainCmd.PAIR_REQUEST, []⟩ ∧
    ([7, 7, 7, 7, 7, 7] : Mac) ≠ [1, 2, 3, 4, 5, 6] ∧
    processItemV5 ⟨[], 1, some [1, 2, 3, 4, 5, 6], false⟩
        ⟨[7, 7, 7, 7, 7, 7], [5, 0], 0⟩
      = (⟨[], 1, some [1, 2, 3, 4, 5, 6], false⟩,
         [RCOutput.sentPacket [7, 7, 7, 7, 7, 7] errorInvalidMacPacket]) :=
  ⟨by decide, by decide,
   (pair_request_unauthorized_rejected ⟨[], 1, some [1, 2, 3, 4, 5, 6], false⟩
     ⟨[7, 7, 7, 7, 7, 7], [5, 0], 0⟩ ⟨MainCmd.PAIR_REQUEST, []⟩
     [1, 2, 3, 4, 5, 6] (by decide) (by decide) rfl (by decide)).1⟩

/-- C2 counterexample: the claim "only a PAIR_REQUEST that passes
re-authentication returns a disconnected peer to CONNECTED" is false at
this concrete input: the peer `[10,...,15]` is in the table with
`connected = false`, the configured authorized address is the different
`[9,...,9]`, and a plain HEARTBEAT frame (`[1, 0]`) — not a
PAIR_REQUEST, with no re-authentication possible — flips the peer back
to `connected = true` (and is even answered with `ACK`). -/
theorem heartbeat_reconnects_disconnected_peer_cex :
    processRxQueueV5
        ⟨[⟨[10, 11, 12, 13, 14, 15], false, 5, 0, 0, 0⟩], 1,
         some [9, 9, 9, 9, 9, 9], false⟩
        [⟨[10, 11, 12, 13, 14, 15], [1, 0], 99⟩]
      = (⟨[⟨[10, 11, 12, 13, 14, 15], true, 99, 1, 0, 0⟩], 1,
          some [9, 9, 9, 9, 9, 9], false⟩,
         [RCOutput.sentPacket [10, 11, 12, 13, 14, 15] ackPacket]) := by
  decide

/-- C2 amended: a peer whose `connected` flag became false after a
timeout stays in the peer table, and a successfully parsed HEARTBEAT
from it sets `connected` back to true without any re-authentication
(last-writer-wins); only an address absent from the peer table gains no
table entry from frames other than `PAIR_REQUEST` and so still needs the
pairing flow to become connected. -/
theorem disconnected_peer_reconnect_policy :
    (∀ (st : ManagerState) (mac : Mac) (ts : Nat),
      hasPeer st mac = true →
        ((processItemV5 st ⟨mac, [MainCmd.HEARTBEAT, 0], ts⟩).1.peers.any
          (fun p => decide (p.mac = mac) && p.connected)) = true) ∧
    (∀ (st : ManagerState) (it : RxQueueItem) (pkt : ESPNowPacket),
      parse it.data = some pkt → pkt.mainCmd ≠ MainCmd.PAIR_REQUEST →
        (processItemV5 st it).1.peers.map PeerRecord.mac
          = st.peers.map PeerRecord.mac) := by
  constructor
  · intro st mac ts h
    have hp : parse [MainCmd.HEARTBEAT, 0] = some ⟨MainCmd.HEARTBEAT, []⟩ := by
      decide
    simp only [processItemV5, hp]
    rw [if_neg (by decide), if_pos (by decide)]
    exact touchFirst_any_connected _ _ _ h
  · intro st it pkt hp hc
    simp only [processItemV5, hp]
    by_cases h1 : pkt.mainCmd = MainCmd.HEARTBEAT
    · simp [h1, MainCmd.HEARTBEAT, MainCmd.PAIR_REQUEST, touchFirst_map_mac]
    · by_cases h2 : pkt.mainCmd = MainCmd.USER_START ∨
          pkt.mainCmd = MainCmd.DATA_REQUEST
      · rcases h2 with h2 | h2 <;>
          simp [h2, MainCmd.USER_START, MainCmd.DATA_REQUEST,
            MainCmd.PAIR_REQUEST, MainCmd.HEARTBEAT, touchFirst_map_mac]
      · simp only [if_neg hc, if_neg h1]
        rw [if_neg h2]

/-- C2 amended witness: a known but disconnected peer is reconnected by
a heartbeat, and a heartbeat from an unknown source adds no table
entry. -/
theorem disconnected_peer_reconnect_policy_witness :
    hasPeer ⟨[⟨[10, 11, 12, 13, 14, 15], false, 5, 0, 0, 0⟩], 1,
        some [9, 9, 9, 9, 9, 9], false⟩ [10, 11, 12, 13, 14, 15] = true ∧
    ((processItemV5
        ⟨[⟨[10, 11, 12, 13, 14, 15], false, 5, 0, 0, 0⟩], 1,
         some [9, 9, 9, 9, 9, 9], false⟩
        ⟨[10, 11, 12, 13, 14, 15], [MainCmd.HEARTBEAT, 0], 99⟩).1.peers.any
      (fun p => decide (p.mac = [10, 11, 12, 13, 14, 15]) && p.connected)) = true :=
  ⟨by decide,
   disconnected_peer_reconnect_policy.1
     ⟨[⟨[10, 11, 12, 13, 14, 15], false, 5, 0, 0, 0⟩], 1,
      some [9, 9, 9, 9, 9, 9], false⟩
     [10, 11, 12, 13, 14, 15] 99 (by decide)⟩

/-- C4: `parse` succeeds exactly when the buffer has at least the 2-byte
header, the second header byte equals the buffer length minus 2, and
every entry's declared length stays inside the buffer; on any violation
it returns `none` (the `Option` result models failure without partial
mutation of caller state, and the parser consumes only the supplied
bytes). -/
theorem parse_success_characterization (bs : List Nat) :
    (parse bs).isSome = true ↔
      2 ≤ bs.length ∧ bs.getD 1 0 = bs.length - 2 ∧
        entriesOk (bs.drop 2) = true := by
  match bs with
  | [] => simp [parse]
  | [x] => simp [parse]
  | cmd :: t :: rest =>
    by_cases ht : t = rest.length
    · simp only [parse, if_pos ht]
      have := parseEntries_isSome_eq rest
      constructor
      · intro h
        refine ⟨by simp, by simpa using ht, ?_⟩
        simp only [List.drop_succ_cons, List.drop_zero]
        cases hpe : parseEntries rest with
        | none => rw [hpe] at h; simp at h
        | some es => rw [hpe] at this; simpa using this.symm
      · intro _
        cases hpe : parseEntries rest with
        | none =>
          exfalso
          rcases ‹2 ≤ (cmd :: t :: rest).length ∧ _ ∧ _› with ⟨_, _, hok⟩
          rw [hpe] at this
          simp only [List.drop_succ_cons, List.drop_zero] at hok
          rw [hok] at this
          simp at this
        | some es => simp [hpe]
    · simp only [parse, if_neg ht]
      simp only [List.getD_cons_succ, List.getD_cons_zero, List.length_cons]
      constructor
      · intro h; simp at h
      · intro ⟨_, h2, _⟩
        exact absurd (by omega : t = rest.length) ht

/-- C6: a connected peer that stays silent past the configured timeout
is marked disconnected by the periodic scan, which raises the
`HEARTBEAT_TIMEOUT` and `PEER_DISCONNECTED` events exactly once for that
disconnection; any later scan while the peer stays silent changes
nothing and raises no further event. -/
theorem timeout_fires_once (st : ManagerState) (p : PeerRecord)
    (now timeout now2 : Nat) (hpeers : st.peers = [p])
    (hc : p.connected = true) (ht : p.lastSeen + timeout < now) :
    (checkTimeouts st now timeout).1.peers = [{ p with connected := false }] ∧
    (checkTimeouts st now timeout).2 =
      [RCOutput.raisedEvent ESPNowEvent.HEARTBEAT_TIMEOUT p.mac,
       RCOutput.raisedEvent ESPNowEvent.PEER_DISCONNECTED p.mac] ∧
    checkTimeouts (checkTimeouts st now timeout).1 now2 timeout
      = ((checkTimeouts st now timeout).1, []) := by
  have h1 : scanPeer now timeout p =
      ({ p with connected := false },
       [RCOutput.raisedEvent ESPNowEvent.HEARTBEAT_TIMEOUT p.mac,
        RCOutput.raisedEvent ESPNowEvent.PEER_DISCONNECTED p.mac]) := by
    simp [scanPeer, hc, ht]
  have h2 : scanPeer now2 timeout { p with connected := false } =
      ({ p with connected := false }, []) := by
    simp [scanPeer]
  refine ⟨?_, ?_, ?_⟩ <;>
    simp [checkTimeouts, hpeers, h1, h2]

/-- C6 witness: a peer last seen at time 10 with timeout 30000 is timed
out by a scan at time 50000; a second scan at 60000 re-emits nothing. -/
theorem timeout_fires_once_witness :
    (⟨[⟨[1, 2, 3, 4, 5, 6], true, 10, 4, 0, 0⟩], 1, none, false⟩ :
        ManagerState).peers = [⟨[1, 2, 3, 4, 5, 6], true, 10, 4, 0, 0⟩] ∧
    (10 + 30000 < 50000) ∧
    ((checkTimeouts ⟨[⟨[1, 2, 3, 4, 5, 6], true, 10, 4, 0, 0⟩], 1, none, false⟩
        50000 30000).2 =
      [RCOutput.raisedEvent ESPNowEvent.HEARTBEAT_TIMEOUT [1, 2, 3, 4, 5, 6],
       RCOutput.raisedEvent ESPNowEvent.PEER_DISCONNECTED [1, 2, 3, 4, 5, 6]] ∧
     checkTimeouts
        (checkTimeouts ⟨[⟨[1, 2, 3, 4, 5, 6], true, 10, 4, 0, 0⟩], 1, none,
          false⟩ 50000 30000).1 60000 30000
      = ((checkTimeouts ⟨[⟨[1, 2, 3, 4, 5, 6], true, 10, 4, 0, 0⟩], 1, none,
          false⟩ 50000 30000).1, [])) :=
  ⟨rfl, by decide,
   ⟨(timeout_fires_once
      ⟨[⟨[1, 2, 3, 4, 5, 6], true, 10, 4, 0, 0⟩], 1, none, false⟩
      ⟨[1, 2, 3, 4, 5, 6], true, 10, 4, 0, 0⟩ 50000 30000 60000
      rfl rfl (by decide)).2.1,
    (timeout_fires_once
      ⟨[⟨[1, 2, 3, 4, 5, 6], true, 10, 4, 0, 0⟩], 1, none, false⟩
      ⟨[1, 2, 3, 4, 5, 6], true, 10, 4, 0, 0⟩ 50000 30000 60000
      rfl rfl (by decide)).2.2⟩⟩

/-- C3: for every entry sequence of byte-valued fields whose value
lengths are at most 246 and whose total encoded size fits the 250-byte
MTU, building the frame entry by entry succeeds, and parsing the
serialized wire bytes returns exactly the same main command and the same
entries — same sub-commands, lengths, byte values, in insertion order. -/
theorem build_parse_roundtrip (cmd : Nat) (es : List Entry)
    (hcmd : cmd < 256)
    (hsub : ∀ e ∈ es, e.subCmd < 256)
    (hval : ∀ e ∈ es, ∀ b ∈ e.value, b < 256)
    (hlen : ∀ e ∈ es, e.value.length ≤ 246)
    (htot : 2 + payloadLen es ≤ 250) :
    buildPacket cmd es = some ⟨cmd, es⟩ ∧
    parse (serialize ⟨cmd, es⟩) = some ⟨cmd, es⟩ := by
  have hcmd' : cmd % 256 = cmd := Nat.mod_eq_of_lt hcmd
  constructor
  · have := foldlM_addEntry es (beginPacket cmd) hsub hlen
      (by simpa [beginPacket] using htot)
    simpa [buildPacket, beginPacket, hcmd'] using this
  · have hplen : payloadLen es % 256 = payloadLen es :=
      Nat.mod_eq_of_lt (by omega)
    have hlenEq : ((es.map serializeEntry).flatten).length = payloadLen es :=
      serialize_flatten_length es
    simp only [serialize, hcmd', hplen, parse]
    rw [if_pos hlenEq.symm, parseEntries_serialize es hsub hval hlen]

/-- C3 witness: the two-entry joystick frame satisfies the size
constraints, builds, and round-trips. -/
theorem build_parse_roundtrip_witness :
    (2 + payloadLen [⟨16, [42, 0]⟩, ⟨17, [239, 255]⟩] ≤ 250) ∧
    (buildPacket 2 [⟨16, [42, 0]⟩, ⟨17, [239, 255]⟩]
        = some ⟨2, [⟨16, [42, 0]⟩, ⟨17, [239, 255]⟩]⟩ ∧
      parse (serialize ⟨2, [⟨16, [42, 0]⟩, ⟨17, [239, 255]⟩]⟩)
        = some ⟨2, [⟨16, [42, 0]⟩, ⟨17, [239, 255]⟩]⟩) :=
  ⟨by decide,
   build_parse_roundtrip 2 [⟨16, [42, 0]⟩, ⟨17, [239, 255]⟩]
     (by decide) (by decide) (by decide) (by decide) (by decide)⟩

/-- C5: two successive successful `PAIR_REQUEST`s from the authorized
address leave exactly one peer record for that address — the second
request adds no duplicate and still succeeds (it sends `PAIR_RESPONSE`
and raises `PEER_CONNECTED`) — and after each request that record is
connected. -/
theorem repair_idempotent (st : ManagerState) (a : Mac) (ts1 ts2 : Nat)
    (ha : st.authorizedMac = some a)
    (hnew : hasPeer st a = false)
    (hcap : st.peers.length < st.maxPeers) :
    countMac (handlePairRequest st a ts1).1.peers a = 1 ∧
    countMac (handlePairRequest (handlePairRequest st a ts1).1 a ts2).1.peers a
      = 1 ∧
    (handlePairRequest st a ts1).1.peers.any
      (fun p => decide (p.mac = a) && p.connected) = true ∧
    (handlePairRequest (handlePairRequest st a ts1).1 a ts2).1.peers.any
      (fun p => decide (p.mac = a) && p.connected) = true ∧
    (handlePairRequest st a ts1).2 =
      [RCOutput.sentPacket a pairResponsePacket,
       RCOutput.raisedEvent ESPNowEvent.PEER_CONNECTED a] ∧
    (handlePairRequest (handlePairRequest st a ts1).1 a ts2).2 =
      [RCOutput.sentPacket a pairResponsePacket,
       RCOutput.raisedEvent ESPNowEvent.PEER_CONNECTED a] := by
  have habs : st.peers.any (fun p => p.mac = a) = false := hnew
  have hv : isValidMasterMac st a = true := by simp [isValidMasterMac, ha]
  have hadd : addPeer st a
      = some { st with peers := st.peers ++ [⟨a, false, 0, 0, 0, 0⟩] } := by
    unfold addPeer
    rw [if_neg (by omega)]
  have hset1 : setConnectedFirst (st.peers ++ [⟨a, false, 0, 0, 0, 0⟩]) a ts1
      = st.peers ++ [⟨a, true, ts1, 0, 0, 0⟩] :=
    setConnectedFirst_append_of_absent _ _ _ _ habs rfl
  have h1 : handlePairRequest st a ts1
      = ({ st with peers := st.peers ++ [⟨a, true, ts1, 0, 0, 0⟩] },
         [RCOutput.sentPacket a pairResponsePacket,
          RCOutput.raisedEvent ESPNowEvent.PEER_CONNECTED a]) := by
    simp [handlePairRequest, hv, hasPeer, habs, hadd, hset1]
  have hv2 : isValidMasterMac
      { st with peers := st.peers ++ [⟨a, true, ts1, 0, 0, 0⟩] } a = true := by
    simp [isValidMasterMac, ha]
  have hhas2 : hasPeer
      { st with peers := st.peers ++ [⟨a, true, ts1, 0, 0, 0⟩] } a = true := by
    simp [hasPeer]
  have hset2 : setConnectedFirst (st.peers ++ [⟨a, true, ts1, 0, 0, 0⟩]) a ts2
      = st.peers ++ [⟨a, true, ts2, 0, 0, 0⟩] :=
    setConnectedFirst_append_of_absent _ _ _ _ habs rfl
  have h2 : handlePairRequest
      { st with peers := st.peers ++ [⟨a, true, ts1, 0, 0, 0⟩] } a ts2
      = ({ st with peers := st.peers ++ [⟨a, true, ts2, 0, 0, 0⟩] },
         [RCOutput.sentPacket a pairResponsePacket,
          RCOutput.raisedEvent ESPNowEvent.PEER_CONNECTED a]) := by
    simp [handlePairRequest, hv2, hhas2, hset2]
  refine ⟨?_, ?_, ?_, ?_, ?_, ?_⟩
  · rw [h1]
    exact countMac_append_single _ _ _ habs rfl
  · rw [h1, h2]
    exact countMac_append_single _ _ _ habs rfl
  · rw [h1]
    simp [List.any_append]
  · rw [h1, h2]
    simp [List.any_append]
  · rw [h1]
  · rw [h1, h2]

/-- C5 witness: pairing twice from the authorized address into an empty
table leaves one connected record both times. -/
theorem repair_idempotent_witness :
    hasPeer ⟨[], 2, some [1, 2, 3, 4, 5, 6], false⟩ [1, 2, 3, 4, 5, 6]
        = false ∧
    countMac (handlePairRequest ⟨[], 2, some [1, 2, 3, 4, 5, 6], false⟩
        [1, 2, 3, 4, 5, 6] 50).1.peers [1, 2, 3, 4, 5, 6] = 1 ∧
    countMac (handlePairRequest
        (handlePairRequest ⟨[], 2, some [1, 2, 3, 4, 5, 6], false⟩
          [1, 2, 3, 4, 5, 6] 50).1 [1, 2, 3, 4, 5, 6] 60).1.peers
      [1, 2, 3, 4, 5, 6] = 1 :=
  ⟨by decide,
   (repair_idempotent ⟨[], 2, some [1, 2, 3, 4, 5, 6], false⟩
     [1, 2, 3, 4, 5, 6] 50 60 rfl (by decide) (by decide)).1,
   (repair_idempotent ⟨[], 2, some [1, 2, 3, 4, 5, 6], false⟩
     [1, 2, 3, 4, 5, 6] 50 60 rfl (by decide) (by decide)).2.1⟩

end RemoteDrive
